import Mathlib

/-!
Verification development for the client-side image transformation pipeline in
`src/components/ImageEditor.js`.

The embedding is shallow:
* JS numbers (canvas sizes, crop coordinates, scale factors) become rationals.
* The data-URI strings and base64 payloads handled by the codec become
  `List Char`, so that the comma split and the lazy regex match
  `:(.*?);` of the source can be modelled character by character.
* Each React `useState` cell of the `ImageEditor` component becomes a field of
  `EditorState`; every handler becomes a pure state transformer.
* The awaited operations (the `editImage` / `upscaleImage` remote calls, the
  promise inside `getCroppedImg`, and `fileToBase64`) are passed in as explicit
  settled outcomes, so a handler maps the state before the call plus the
  outcomes of its awaits to the state after the handler finished.
-/

-- ### Definitions: the data model, the codec, and the orchestrator

/-- An image payload as exchanged with the remote service: the
`{ base64, mimeType }` object produced by `getCroppedImg`, by `fileToBase64`,
and by the inline data-URI decoder of `handleUpscale`. -/
structure EncodedImage where
  base64 : List Char
  mimeType : List Char
  deriving DecidableEq

/-- A crop rectangle in displayed-image coordinates, as delivered by
`ReactCrop`'s `onComplete` callback (fields `x`, `y`, `width`, `height`). -/
structure Crop where
  x : ℚ
  y : ℚ
  width : ℚ
  height : ℚ
  deriving DecidableEq

/-- The displayed `<img>` element handle (`imgRef.current`): its natural
(source) dimensions and its displayed dimensions. -/
structure ImgElement where
  naturalWidth : ℚ
  naturalHeight : ℚ
  width : ℚ
  height : ℚ
  deriving DecidableEq

/-- The observable effect of the canvas part of `getCroppedImg`
(src/components/ImageEditor.js lines 10-31): the allocated canvas size and
the nine arguments of the single `ctx.drawImage` call. -/
structure RasterizeCall where
  canvasWidth : ℚ
  canvasHeight : ℚ
  sx : ℚ
  sy : ℚ
  sw : ℚ
  sh : ℚ
  dx : ℚ
  dy : ℚ
  dw : ℚ
  dh : ℚ
  deriving DecidableEq

/-- The canvas geometry computed by `getCroppedImg`: scale factors are
`naturalWidth / width` and `naturalHeight / height`, the canvas is allocated
at the crop's displayed size, and the scaled source sub-rectangle is drawn
into the full destination at the origin (lines 11-31 of the source). -/
def getCroppedImg (image : ImgElement) (crop : Crop) : RasterizeCall :=
  let scaleX := image.naturalWidth / image.width
  let scaleY := image.naturalHeight / image.height
  { canvasWidth := crop.width
    canvasHeight := crop.height
    sx := crop.x * scaleX
    sy := crop.y * scaleY
    sw := crop.width * scaleX
    sh := crop.height * scaleY
    dx := 0
    dy := 0
    dw := crop.width
    dh := crop.height }

/-- Whether a character is matched by an unflagged `.` in a JavaScript regular
expression: everything except the line terminators LF, CR, U+2028, U+2029. -/
def isDotChar (ch : Char) : Bool :=
  ch != Char.ofNat 10 && ch != Char.ofNat 13 &&
  ch != Char.ofNat 0x2028 && ch != Char.ofNat 0x2029

/-- A character the lazy group `(.*?)` of the pattern `:(.*?);` can consume:
a regex-dot character that is not the closing semicolon. -/
def dotNotSemi (ch : Char) : Bool :=
  isDotChar ch && ch != ';'

/-- The result of `header.match(/:(.*?);/)` restricted to its first capture
group, as used on lines 40-41 and 135-136 of the source: the leftmost `:`
from which a `;` is reachable through dot characters yields the characters
between them; otherwise there is no match. -/
def extractMime : List Char → Option (List Char)
  | [] => none
  | x :: xs =>
    if x = ':' then
      match xs.dropWhile dotNotSemi with
      | ';' :: _ => some (xs.takeWhile dotNotSemi)
      | _ => extractMime xs
    else extractMime xs

/-- JavaScript `String.prototype.split` on a one-character separator:
`splitOnChar c l` cuts `l` at every occurrence of `c`, keeping empty pieces,
and yields `[l]` when `c` does not occur (also on the empty string). -/
def splitOnChar (c : Char) : List Char → List (List Char)
  | [] => [[]]
  | x :: xs =>
    if x = c then [] :: splitOnChar c xs
    else
      match splitOnChar c xs with
      | [] => [[x]]
      | y :: ys => (x :: y) :: ys

/-- The error message thrown on line 134 of the source when the stored data
URI does not split into a header and a payload. -/
def invalidEditedFormatMsg : String := "فرمت تصویر ویرایش شده نامعتبر است."

/-- The data-URI decoder inlined in `handleUpscale` (lines 133-136 of the
source): split at the commas, take the first piece as header and the second
as payload, fail when either is missing or empty, and recover the MIME type
from the header via `:(.*?);`, defaulting to `image/png` when the pattern
does not match. The same split-and-match logic appears in `getCroppedImg`
(lines 35-41) with a different failure message. -/
def decode (uri : List Char) : Except String EncodedImage :=
  match splitOnChar ',' uri with
  | header :: data :: _ =>
    if header = [] ∨ data = [] then Except.error invalidEditedFormatMsg
    else Except.ok ⟨data, (extractMime header).getD ("image/png".toList)⟩
  | _ => Except.error invalidEditedFormatMsg

/-- Modelled from the spec: the Payload Codec operation
`encode(bytesAsText, mimeType) -> dataUri`, the trivial inverse of `decode`.
The repository itself only instantiates this data-URI template at the fixed
MIME type `image/png` (template literals on lines 104 and 139 of the
source), so the general form follows the spec's words. -/
def encode (bytes mime : List Char) : List Char :=
  "data:".toList ++ mime ++ ";base64,".toList ++ bytes

/-- The settled outcome of one awaited remote call (`editImage` or
`upscaleImage`): either the returned base64 bytes, or a rejection whose
`message` is modelled as a `String` (the empty string standing for a missing
message, which is equally falsy in the `err.message || fallback` test). -/
inductive RemoteResult where
  | ok (bytes : List Char)
  | err (msg : String)

/-- The user-selected file, as far as the orchestrator observes it (its
content only ever flows into the external `fileToBase64`, which is modelled
as an outcome parameter of `handleEdit`). -/
structure SrcFile where
  fname : String
  fmime : String
  deriving DecidableEq

/-- The `originalImage` state cell: `{ file, previewUrl }` as set by
`handleFileChange` (line 64 of the source). -/
structure SourceImage where
  file : SrcFile
  previewUrl : String
  deriving DecidableEq

/-- One field per `useState` cell of the `ImageEditor` component
(lines 47-59 of the source). The edit StageResult is
(`isLoading`, `error`, `editedImage`), the upscale StageResult is
(`isUpscaling`, `upscaleError`, `upscaledImage`). -/
structure EditorState where
  prompt : String
  originalImage : Option SourceImage
  editedImage : Option (List Char)
  isLoading : Bool
  error : Option String
  upscaledImage : Option (List Char)
  isUpscaling : Bool
  upscaleError : Option String
  crop : Option Crop
  completedCrop : Option Crop
  deriving DecidableEq

/-- The initial component state: every cell at its `useState` initial value. -/
def initState : EditorState :=
  { prompt := ""
    originalImage := none
    editedImage := none
    isLoading := false
    error := none
    upscaledImage := none
    isUpscaling := false
    upscaleError := none
    crop := none
    completedCrop := none }

/-- Validation message of `handleEdit` when no image is uploaded (line 81). -/
def noImageMsg : String := "لطفا ابتدا یک تصویر آپلود کنید."

/-- Validation message of `handleEdit` when the prompt is empty (line 85). -/
def noPromptMsg : String := "لطفا دستور ویرایش را وارد کنید."

/-- Generic fallback message of `handleEdit`'s catch block (line 106). -/
def genericEditFailMsg : String := "خطایی غیرمنتظره رخ داد."

/-- Validation message of `handleUpscale` when there is no edited image to
upscale (line 125). -/
def noUpscaleSourceMsg : String := "تصویر ویرایش شده‌ای برای افزایش کیفیت وجود ندارد."

/-- Generic fallback message of `handleUpscale`'s catch block (line 141). -/
def genericUpscaleFailMsg : String := "خطایی غیرمنتظره در هنگام افزایش کیفیت رخ داد."

/-- JavaScript `err.message || fallback`: the fallback replaces a missing or
empty message. -/
def messageOr (m fallback : String) : String :=
  if m = "" then fallback else m

/-- The stored-result template literal `data:image/png;base64,${bytes}` used
on lines 104 and 139 of the source. -/
def pngDataUri (bytes : List Char) : List Char :=
  "data:image/png;base64,".toList ++ bytes

/-- Handler `handleFileChange` with a file present (lines 61-72 of the source):
replace `originalImage` with the file and its preview URL, clear both result
images, both error messages, and both crop cells. The preview URL produced by
`URL.createObjectURL` is an external input. -/
def handleFileChange (s : EditorState) (f : SrcFile) (url : String) : EditorState :=
  { s with
    originalImage := some ⟨f, url⟩
    editedImage := none
    error := none
    upscaledImage := none
    upscaleError := none
    crop := none
    completedCrop := none }

/-- Handler `handleClearCrop` (lines 74-77): clear both crop cells only. -/
def handleClearCrop (s : EditorState) : EditorState :=
  { s with crop := none, completedCrop := none }

/-- The guard on line 97 of the source:
`completedCrop && completedCrop.width > 0 && completedCrop.height > 0 && imgRef.current`. -/
def editUsesCrop (completedCrop : Option Crop) (imgRefPresent : Bool) : Bool :=
  match completedCrop with
  | none => false
  | some c => decide (0 < c.width) && decide (0 < c.height) && imgRefPresent

/-- The synchronous entry effects of `handleEdit` once its preconditions
passed (lines 88-92): start loading and clear the edit error, the edit
result, the upscale result, and the upscale error. `isUpscaling` is not
touched. -/
def handleEditEntry (s : EditorState) : EditorState :=
  { s with
    isLoading := true
    error := none
    editedImage := none
    upscaledImage := none
    upscaleError := none }

/-- Handler `handleEdit` (lines 79-110 of the source) as a function of the state at
invocation and of the settled outcomes of its awaits: `cropRes` stands for
the `getCroppedImg` promise, `fileRes` for `fileToBase64`, and
`remoteEditCall` for the awaited `editImage(base64, mimeType, prompt)`.
Rejections of either local path are caught by the same catch block as remote
failures. -/
def handleEdit (s : EditorState) (imgRefPresent : Bool)
    (cropRes fileRes : Except String EncodedImage)
    (remoteEditCall : List Char → List Char → String → RemoteResult) : EditorState :=
  match s.originalImage with
  | none => { s with error := some noImageMsg }
  | some _ =>
    if s.prompt = "" then { s with error := some noPromptMsg }
    else
      match (if editUsesCrop s.completedCrop imgRefPresent then cropRes else fileRes) with
      | Except.error m =>
        { handleEditEntry s with
          isLoading := false
          error := some (messageOr m genericEditFailMsg) }
      | Except.ok img =>
        match remoteEditCall img.base64 img.mimeType s.prompt with
        | RemoteResult.err m =>
          { handleEditEntry s with
            isLoading := false
            error := some (messageOr m genericEditFailMsg) }
        | RemoteResult.ok bytes =>
          { handleEditEntry s with
            isLoading := false
            editedImage := some (pngDataUri bytes) }

/-- The synchronous entry effects of `handleUpscale` once its precondition
passed (lines 128-130): start upscaling and clear the upscale error and the
upscale result only. -/
def handleUpscaleEntry (s : EditorState) : EditorState :=
  { s with
    isUpscaling := true
    upscaleError := none
    upscaledImage := none }

/-- Handler `handleUpscale` (lines 123-145 of the source) as a function of the state
at invocation and of the awaited `upscaleImage(data, mimeType)`, which
receives the payload and MIME type recovered by `decode` from the stored
edited-image data URI. -/
def handleUpscale (s : EditorState)
    (remoteUpscaleCall : List Char → List Char → RemoteResult) : EditorState :=
  match s.editedImage with
  | none => { s with upscaleError := some noUpscaleSourceMsg }
  | some uri =>
    match decode uri with
    | Except.error m =>
      { handleUpscaleEntry s with
        isUpscaling := false
        upscaleError := some (messageOr m genericUpscaleFailMsg) }
    | Except.ok img =>
      match remoteUpscaleCall img.base64 img.mimeType with
      | RemoteResult.err m =>
        { handleUpscaleEntry s with
          isUpscaling := false
          upscaleError := some (messageOr m genericUpscaleFailMsg) }
      | RemoteResult.ok bytes =>
        { handleUpscaleEntry s with
          isUpscaling := false
          upscaledImage := some (pngDataUri bytes) }

/-- The `(data, mimeType)` pair `handleUpscale` hands to the remote
`upscaleImage` call, when the call is reached: the decode of the stored
edited-image data URI. -/
def upscaleRemoteArgs (s : EditorState) : Option (List Char × List Char) :=
  match s.editedImage with
  | none => none
  | some uri =>
    match decode uri with
    | Except.error _ => none
    | Except.ok img => some (img.base64, img.mimeType)

deriving instance DecidableEq for Except

/-- States reachable by any sequence of completed operations from the initial
component state: prompt input, crop-selection input, `handleFileChange` with
a file, `handleClearCrop`, a completed `handleEdit` run (with any outcomes of
its awaits), and a completed `handleUpscale` run. -/
inductive Reach : EditorState → Prop where
  | init : Reach initState
  | promptChange {s : EditorState} (p : String) :
      Reach s → Reach { s with prompt := p }
  | cropChange {s : EditorState} (c cc : Option Crop) :
      Reach s → Reach { s with crop := c, completedCrop := cc }
  | fileChange {s : EditorState} (f : SrcFile) (url : String) :
      Reach s → Reach (handleFileChange s f url)
  | clearCrop {s : EditorState} : Reach s → Reach (handleClearCrop s)
  | edit {s : EditorState} (irp : Bool) (c f : Except String EncodedImage)
      (r : List Char → List Char → String → RemoteResult) :
      Reach s → Reach (handleEdit s irp c f r)
  | upscale {s : EditorState} (r : List Char → List Char → RemoteResult) :
      Reach s → Reach (handleUpscale s r)

/-- Between the entry of a stage handler and its completion the component
also exposes the in-flight state; an observable state is a completed state
or the entry state of a permitted in-flight run. -/
inductive Observable : EditorState → Prop where
  | done {s : EditorState} : Reach s → Observable s
  | editLoading {s : EditorState} :
      Reach s → s.originalImage ≠ none → s.prompt ≠ "" →
      Observable (handleEditEntry s)
  | upscaleLoading {s : EditorState} :
      Reach s → s.editedImage ≠ none → Observable (handleUpscaleEntry s)

/-- A sample uploaded file. -/
def exampleFile : SrcFile := ⟨"photo.jpg", "image/jpeg"⟩

/-- A sample local-encoder result. -/
def sampleImg : EncodedImage := ⟨"QQ==".toList, "image/jpeg".toList⟩

/-- A state with an uploaded image and a non-empty prompt, reachable from the
initial state by a prompt change followed by a file selection. -/
def readyState : EditorState :=
  { initState with prompt := "p", originalImage := some ⟨exampleFile, "blob:x"⟩ }

/-- A state in which an edit has succeeded and an upscale is in flight. -/
def upscalingBusyState : EditorState :=
  { readyState with
    editedImage := some (pngDataUri ("QUJD".toList))
    isUpscaling := true }

/-- A state with an uploaded image but a still-empty prompt. -/
def sourceOnlyState : EditorState :=
  { initState with originalImage := some ⟨exampleFile, "blob:x"⟩ }

/-- A constant successful remote edit outcome, for closed statements. -/
def remoteEditStub : List Char → List Char → String → RemoteResult :=
  fun _ _ _ => RemoteResult.ok ("QUJD".toList)

/-- A constant successful remote upscale outcome, for closed statements. -/
def remoteUpscaleStub : List Char → List Char → RemoteResult :=
  fun _ _ => RemoteResult.ok ("RUZH".toList)

/-- A `handleEdit` run in which both local encoders and the remote edit call
succeed, the latter returning `b`. -/
def editOk (s : EditorState) (irp : Bool) (ic ifc : EncodedImage)
    (b : List Char) : EditorState :=
  handleEdit s irp (Except.ok ic) (Except.ok ifc) (fun _ _ _ => RemoteResult.ok b)

/-- A successful `handleEdit` run followed by a `handleUpscale` run whose
remote call succeeds returning `b2`. -/
def editThenUpscaleOk (s : EditorState) (irp : Bool) (ic ifc : EncodedImage)
    (b1 b2 : List Char) : EditorState :=
  handleUpscale (editOk s irp ic ifc b1) (fun _ _ => RemoteResult.ok b2)

/-- Per-stage mutual exclusion between Loading and the terminal fields: a
loading stage holds neither a result image nor an error message. -/
def stageInvariant (s : EditorState) : Prop :=
  (s.isLoading = true → s.error = none ∧ s.editedImage = none) ∧
  (s.isUpscaling = true → s.upscaleError = none ∧ s.upscaledImage = none)

/-- Every stored edited image uses the PNG data-URI template, every reached
remote upscale call receives the MIME type image/png, and `handleUpscale`
depends on the remote call only through its value at that argument pair. -/
def pngInvariant (s : EditorState) : Prop :=
  (∀ u, s.editedImage = some u → ∃ b, u = pngDataUri b) ∧
  (∀ p, upscaleRemoteArgs s = some p → p.2 = "image/png".toList) ∧
  (∀ r1 r2 : List Char → List Char → RemoteResult,
    (∀ p, upscaleRemoteArgs s = some p → r1 p.1 p.2 = r2 p.1 p.2) →
    handleUpscale s r1 = handleUpscale s r2)

/-- Witness for C10: the reachable state produced by a successful edit from
the concrete ready state. -/
def editedReachedState : EditorState :=
  editOk readyState true sampleImg sampleImg ("QUJD".toList)

-- ### Lemmas and the claim theorems

lemma splitOnChar_ne_nil (c : Char) (l : List Char) : splitOnChar c l ≠ [] := by
  induction l with
  | nil => simp [splitOnChar]
  | cons x xs ih =>
    by_cases hx : x = c
    · simp [splitOnChar, hx]
    · simp only [splitOnChar, if_neg hx]
      rcases h : splitOnChar c xs with _ | ⟨y, ys⟩
      · exact absurd h ih
      · simp

lemma splitOnChar_eq_single {c : Char} {l : List Char} (h : c ∉ l) :
    splitOnChar c l = [l] := by
  induction l with
  | nil => rfl
  | cons x xs ih =>
    have hx : ¬ x = c := fun hh => h (hh ▸ List.mem_cons_self x xs)
    have hxs : c ∉ xs := fun hh => h (List.mem_cons_of_mem _ hh)
    simp [splitOnChar, hx, ih hxs]

lemma splitOnChar_append {c : Char} {a : List Char} (b : List Char) (h : c ∉ a) :
    splitOnChar c (a ++ c :: b) = a :: splitOnChar c b := by
  induction a with
  | nil => simp [splitOnChar]
  | cons x xs ih =>
    have hx : ¬ x = c := fun hh => h (hh ▸ List.mem_cons_self x xs)
    have hxs : c ∉ xs := fun hh => h (List.mem_cons_of_mem _ hh)
    simp [splitOnChar, hx, ih hxs]

lemma takeWhile_dropWhile_middle {p : Char → Bool} {m : List Char}
    (c : Char) (t : List Char) (hm : ∀ ch ∈ m, p ch = true) (hc : p c = false) :
    (m ++ c :: t).takeWhile p = m ∧ (m ++ c :: t).dropWhile p = c :: t := by
  induction m with
  | nil => simp [List.takeWhile_cons, List.dropWhile_cons, hc]
  | cons x xs ih =>
    have hx : p x = true := hm x (List.mem_cons_self x xs)
    have ih' := ih (fun ch hch => hm ch (List.mem_cons_of_mem _ hch))
    simp [List.takeWhile_cons, List.dropWhile_cons, hx, ih'.1, ih'.2]

lemma extractMime_header (mime t : List Char)
    (hm : ∀ ch ∈ mime, dotNotSemi ch = true) :
    extractMime ("data:".toList ++ (mime ++ ';' :: t)) = some mime := by
  have hsemi : dotNotSemi ';' = false := by decide
  have h := takeWhile_dropWhile_middle ';' t hm hsemi
  show extractMime ('d' :: 'a' :: 't' :: 'a' :: ':' :: (mime ++ ';' :: t)) = some mime
  rw [extractMime, if_neg (by decide)]
  rw [extractMime, if_neg (by decide)]
  rw [extractMime, if_neg (by decide)]
  rw [extractMime, if_neg (by decide)]
  rw [extractMime, if_pos rfl, h.2, h.1]
  rfl

lemma pngDataUri_cons (b : List Char) :
    pngDataUri b = "data:image/png;base64".toList ++ ',' :: b := rfl

lemma extractMime_pngHeader :
    extractMime ("data:image/png;base64".toList) = some ("image/png".toList) := by
  decide

lemma decode_pngDataUri {b : List Char} (h1 : b ≠ []) (h2 : (',' : Char) ∉ b) :
    decode (pngDataUri b) = Except.ok ⟨b, "image/png".toList⟩ := by
  rw [pngDataUri_cons]
  unfold decode
  rw [splitOnChar_append b (by decide), splitOnChar_eq_single h2]
  show (if "data:image/png;base64".toList = [] ∨ b = [] then _ else _) = _
  rw [if_neg (by push_neg; exact ⟨by decide, h1⟩), extractMime_pngHeader]
  rfl

lemma decode_pngDataUri_shape (b : List Char) :
    decode (pngDataUri b) = Except.error invalidEditedFormatMsg ∨
    ∃ d, decode (pngDataUri b) = Except.ok ⟨d, "image/png".toList⟩ := by
  rw [pngDataUri_cons]
  unfold decode
  rw [splitOnChar_append b (by decide)]
  rcases hs : splitOnChar ',' b with _ | ⟨d, ds⟩
  · exact absurd hs (splitOnChar_ne_nil ',' b)
  · rcases eq_or_ne d [] with hd | hd
    · subst hd
      left
      simp
    · right
      refine ⟨d, ?_⟩
      show (if "data:image/png;base64".toList = [] ∨ d = [] then _ else _) = _
      rw [if_neg (by push_neg; exact ⟨by decide, hd⟩), extractMime_pngHeader]
      rfl

lemma encode_split (bytes mime : List Char) :
    encode bytes mime = ("data:".toList ++ mime ++ ";base64".toList) ++ ',' :: bytes := by
  show "data:".toList ++ mime ++ ";base64,".toList ++ bytes = _
  rw [show (";base64,".toList : List Char) = ";base64".toList ++ [','] from by decide]
  simp [List.append_assoc]

/-- C3: `getCroppedImg` computes scaleX = naturalWidth/width and
scaleY = naturalHeight/height, allocates the destination raster at exactly
the crop's displayed size, and draws the source sub-rectangle located at
(crop.x*scaleX, crop.y*scaleY) with size (crop.width*scaleX,
crop.height*scaleY) into the destination at the origin; in particular, for
crop {x:10, y:10, width:100, height:50} on an 800x600 source displayed at
0.5x it samples the source rectangle (20,20,200,100) into a 100x50
destination. -/
theorem c3_rasterizer_geometry :
    (∀ (image : ImgElement) (crop : Crop),
      getCroppedImg image crop =
        { canvasWidth := crop.width
          canvasHeight := crop.height
          sx := crop.x * (image.naturalWidth / image.width)
          sy := crop.y * (image.naturalHeight / image.height)
          sw := crop.width * (image.naturalWidth / image.width)
          sh := crop.height * (image.naturalHeight / image.height)
          dx := 0
          dy := 0
          dw := crop.width
          dh := crop.height }) ∧
    getCroppedImg ⟨800, 600, 400, 300⟩ ⟨10, 10, 100, 50⟩ =
      { canvasWidth := 100, canvasHeight := 50, sx := 20, sy := 20,
        sw := 200, sh := 100, dx := 0, dy := 0, dw := 100, dh := 50 } :=
  ⟨fun _ _ => rfl, by norm_num [getCroppedImg, RasterizeCall.mk.injEq]⟩

/-- C6: `decode` on a URI containing no comma fails with the decoding error
message, while on a URI whose header lacks a `:type;` segment it succeeds
and defaults the MIME type to image/png. -/
theorem c6_decode_failure_and_default :
    (∀ uri : List Char, (',' : Char) ∉ uri →
      decode uri = Except.error invalidEditedFormatMsg) ∧
    (∀ hdr d : List Char, hdr ≠ [] → d ≠ [] →
      (',' : Char) ∉ hdr → (',' : Char) ∉ d → extractMime hdr = none →
      decode (hdr ++ ',' :: d) = Except.ok ⟨d, "image/png".toList⟩) := by
  constructor
  · intro uri hu
    unfold decode
    rw [splitOnChar_eq_single hu]
  · intro hdr d h1 h2 h3 h4 h5
    unfold decode
    rw [splitOnChar_append d h3, splitOnChar_eq_single h4]
    show (if hdr = [] ∨ d = [] then _ else _) = _
    rw [if_neg (by push_neg; exact ⟨h1, h2⟩), h5]
    rfl

/-- Witness for C6 at concrete inputs: a comma-free URI fails to decode, and
a URI with a comma but a pattern-free header decodes with the PNG default. -/
theorem c6_witness :
    decode ("abc".toList) = Except.error invalidEditedFormatMsg ∧
    decode ("hdr".toList ++ ',' :: "pay".toList) =
      Except.ok ⟨"pay".toList, "image/png".toList⟩ :=
  ⟨c6_decode_failure_and_default.1 ("abc".toList) (by decide),
   c6_decode_failure_and_default.2 ("hdr".toList) ("pay".toList)
     (by decide) (by decide) (by decide) (by decide) (by decide)⟩

/-- C7 counterexample: for mime "a;b" — a MIME string containing a
semicolon — decoding the encoded data URI does not recover the pair:
the lazy `:(.*?);` match stops at the first semicolon and yields "a". -/
theorem c7_counterexample :
    decode (encode ("x".toList) ("a;b".toList)) ≠
      Except.ok ⟨"x".toList, "a;b".toList⟩ := by
  decide

/-- C7 (amended): decode(encode(bytes, mime)) recovers exactly (bytes, mime)
for every non-empty bytes containing no comma and every MIME string whose
characters are regex-dot characters (no line terminators) other than ';'
and ','. -/
theorem c7_decode_encode_roundtrip (bytes mime : List Char) (h1 : bytes ≠ [])
    (h2 : (',' : Char) ∉ bytes)
    (h3 : ∀ ch ∈ mime, (dotNotSemi ch && ch != ',') = true) :
    decode (encode bytes mime) = Except.ok ⟨bytes, mime⟩ := by
  have hdot : ∀ ch ∈ mime, dotNotSemi ch = true := by
    intro ch hch
    have h := h3 ch hch
    simp only [Bool.and_eq_true] at h
    exact h.1
  have hcomma : (',' : Char) ∉ mime := by
    intro hch
    have h := h3 ',' hch
    simp only [Bool.and_eq_true, bne_iff_ne] at h
    exact h.2 rfl
  have ha : (',' : Char) ∉ ("data:".toList ++ mime ++ ";base64".toList) := by
    intro hmem
    rcases List.mem_append.1 hmem with hmem1 | hc
    · rcases List.mem_append.1 hmem1 with hc | hc
      · exact absurd hc (by decide)
      · exact hcomma hc
    · exact absurd hc (by decide)
  rw [encode_split]
  unfold decode
  rw [splitOnChar_append bytes ha, splitOnChar_eq_single h2]
  show (if ("data:".toList ++ mime ++ ";base64".toList) = [] ∨ bytes = [] then _ else _) = _
  have hne : ("data:".toList ++ mime ++ ";base64".toList) ≠ [] := by
    rw [show ("data:".toList : List Char) = 'd' :: "ata:".toList from by decide]
    simp
  rw [if_neg (by push_neg; exact ⟨hne, h1⟩)]
  rw [show (";base64".toList : List Char) = ';' :: "base64".toList from by decide,
    List.append_assoc, extractMime_header mime ("base64".toList) hdot]
  rfl

/-- Witness for the amended C7 at concrete base64 bytes and a real MIME
type. -/
theorem c7_witness :
    decode (encode ("QUJD".toList) ("image/jpeg".toList)) =
      Except.ok ⟨"QUJD".toList, "image/jpeg".toList⟩ :=
  c7_decode_encode_roundtrip ("QUJD".toList) ("image/jpeg".toList)
    (by decide) (by decide) (by decide)

lemma handleEdit_cases (s : EditorState) (irp : Bool)
    (c f : Except String EncodedImage)
    (r : List Char → List Char → String → RemoteResult) :
    handleEdit s irp c f r = { s with error := some noImageMsg } ∨
    handleEdit s irp c f r = { s with error := some noPromptMsg } ∨
    (∃ m, handleEdit s irp c f r =
      { handleEditEntry s with isLoading := false, error := some m }) ∨
    (∃ b, handleEdit s irp c f r =
      { handleEditEntry s with isLoading := false, editedImage := some (pngDataUri b) }) := by
  unfold handleEdit
  split
  · exact Or.inl rfl
  · split
    · exact Or.inr (Or.inl rfl)
    · split
      · exact Or.inr (Or.inr (Or.inl ⟨_, rfl⟩))
      · split
        · exact Or.inr (Or.inr (Or.inl ⟨_, rfl⟩))
        · exact Or.inr (Or.inr (Or.inr ⟨_, rfl⟩))

lemma handleUpscale_cases (s : EditorState)
    (r : List Char → List Char → RemoteResult) :
    handleUpscale s r = { s with upscaleError := some noUpscaleSourceMsg } ∨
    (∃ m, handleUpscale s r =
      { handleUpscaleEntry s with isUpscaling := false, upscaleError := some m }) ∨
    (∃ b, handleUpscale s r =
      { handleUpscaleEntry s with isUpscaling := false, upscaledImage := some (pngDataUri b) }) := by
  unfold handleUpscale
  split
  · exact Or.inl rfl
  · split
    · exact Or.inr (Or.inl ⟨_, rfl⟩)
    · split
      · exact Or.inr (Or.inl ⟨_, rfl⟩)
      · exact Or.inr (Or.inr ⟨_, rfl⟩)

lemma handleEdit_isUpscaling (s : EditorState) (irp : Bool)
    (c f : Except String EncodedImage)
    (r : List Char → List Char → String → RemoteResult) :
    (handleEdit s irp c f r).isUpscaling = s.isUpscaling := by
  rcases handleEdit_cases s irp c f r with h | h | ⟨m, h⟩ | ⟨b, h⟩ <;> rw [h] <;> rfl

lemma handleEdit_isLoading_false (s : EditorState) (irp : Bool)
    (c f : Except String EncodedImage)
    (r : List Char → List Char → String → RemoteResult)
    (hL : s.isLoading = false) :
    (handleEdit s irp c f r).isLoading = false := by
  rcases handleEdit_cases s irp c f r with h | h | ⟨m, h⟩ | ⟨b, h⟩ <;> rw [h] <;>
    exact hL

lemma handleEdit_frame (s : EditorState) (irp : Bool)
    (c f : Except String EncodedImage)
    (r : List Char → List Char → String → RemoteResult) :
    (handleEdit s irp c f r).prompt = s.prompt ∧
    (handleEdit s irp c f r).originalImage = s.originalImage ∧
    (handleEdit s irp c f r).crop = s.crop ∧
    (handleEdit s irp c f r).completedCrop = s.completedCrop := by
  rcases handleEdit_cases s irp c f r with h | h | ⟨m, h⟩ | ⟨b, h⟩ <;> rw [h] <;>
    exact ⟨rfl, rfl, rfl, rfl⟩

lemma handleEdit_editedImage_shape (s : EditorState) (irp : Bool)
    (c f : Except String EncodedImage)
    (r : List Char → List Char → String → RemoteResult) :
    (handleEdit s irp c f r).editedImage = s.editedImage ∨
    (handleEdit s irp c f r).editedImage = none ∨
    ∃ b, (handleEdit s irp c f r).editedImage = some (pngDataUri b) := by
  rcases handleEdit_cases s irp c f r with h | h | ⟨m, h⟩ | ⟨b, h⟩ <;> rw [h]
  · exact Or.inl rfl
  · exact Or.inl rfl
  · exact Or.inr (Or.inl rfl)
  · exact Or.inr (Or.inr ⟨b, rfl⟩)

lemma handleUpscale_frame (s : EditorState)
    (r : List Char → List Char → RemoteResult) :
    (handleUpscale s r).prompt = s.prompt ∧
    (handleUpscale s r).originalImage = s.originalImage ∧
    (handleUpscale s r).editedImage = s.editedImage ∧
    (handleUpscale s r).isLoading = s.isLoading ∧
    (handleUpscale s r).error = s.error ∧
    (handleUpscale s r).crop = s.crop ∧
    (handleUpscale s r).completedCrop = s.completedCrop := by
  rcases handleUpscale_cases s r with h | ⟨m, h⟩ | ⟨b, h⟩ <;> rw [h] <;>
    exact ⟨rfl, rfl, rfl, rfl, rfl, rfl, rfl⟩

lemma handleUpscale_isUpscaling_false (s : EditorState)
    (r : List Char → List Char → RemoteResult)
    (hU : s.isUpscaling = false) :
    (handleUpscale s r).isUpscaling = false := by
  rcases handleUpscale_cases s r with h | ⟨m, h⟩ | ⟨b, h⟩ <;> rw [h] <;>
    exact hU

lemma handleEdit_success {s : EditorState} {oi : SourceImage} (irp : Bool)
    (ic ifc : EncodedImage) (b : List Char)
    (h1 : s.originalImage = some oi) (h2 : s.prompt ≠ "") :
    handleEdit s irp (Except.ok ic) (Except.ok ifc) (fun _ _ _ => RemoteResult.ok b) =
      { handleEditEntry s with isLoading := false, editedImage := some (pngDataUri b) } := by
  unfold handleEdit
  simp only [h1]
  rw [if_neg h2]
  cases hc : editUsesCrop s.completedCrop irp <;> simp [hc]

lemma handleUpscale_success {s : EditorState} {u : List Char} {img : EncodedImage}
    (b : List Char) (h1 : s.editedImage = some u) (h2 : decode u = Except.ok img) :
    handleUpscale s (fun _ _ => RemoteResult.ok b) =
      { handleUpscaleEntry s with isUpscaling := false, upscaledImage := some (pngDataUri b) } := by
  unfold handleUpscale
  simp only [h1, h2]

lemma reach_flags {s : EditorState} (h : Reach s) :
    s.isLoading = false ∧ s.isUpscaling = false := by
  induction h with
  | init => exact ⟨rfl, rfl⟩
  | promptChange p _ ih => exact ih
  | cropChange c cc _ ih => exact ih
  | fileChange f url _ ih => exact ih
  | clearCrop _ ih => exact ih
  | edit irp c f r _ ih =>
    exact ⟨handleEdit_isLoading_false _ irp c f r ih.1,
      (handleEdit_isUpscaling _ irp c f r).trans ih.2⟩
  | upscale r _ ih =>
    exact ⟨(handleUpscale_frame _ r).2.2.2.1.trans ih.1,
      handleUpscale_isUpscaling_false _ r ih.2⟩

lemma reach_editedImage_png {s : EditorState} (h : Reach s) :
    ∀ u, s.editedImage = some u → ∃ b, u = pngDataUri b := by
  induction h with
  | init => exact fun u hu => Option.noConfusion hu
  | promptChange p _ ih => exact ih
  | cropChange c cc _ ih => exact ih
  | fileChange f url _ ih => exact fun u hu => Option.noConfusion hu
  | clearCrop _ ih => exact ih
  | upscale r _ ih =>
    intro u hu
    exact ih u (((handleUpscale_frame _ r).2.2.1).symm.trans hu)
  | edit irp c f r _ ih =>
    intro u hu
    rcases handleEdit_editedImage_shape _ irp c f r with hc | hc | ⟨b, hc⟩
    · exact ih u (hc.symm.trans hu)
    · rw [hc] at hu
      exact Option.noConfusion hu
    · rw [hc] at hu
      exact ⟨b, (Option.some.inj hu).symm⟩

lemma reach_readyState : Reach readyState := by
  exact Reach.fileChange exampleFile "blob:x" (Reach.promptChange "p" Reach.init)

/-- C1 counterexample: entering `handleEdit` while an upscale is still in
flight (`isUpscaling` true — the edit button is not disabled during an
upscale) does not fully clear the upscale StageResult: the entry effects on
lines 88-92 never touch `isUpscaling`, so the upscale loading flag stays
true. -/
theorem c1_counterexample :
    ¬ ((handleEditEntry upscalingBusyState).isUpscaling = false ∧
       (handleEditEntry upscalingBusyState).upscaledImage = none ∧
       (handleEditEntry upscalingBusyState).upscaleError = none) := by
  decide

/-- C1 (amended): on entry `handleEdit` sets edit.isLoading and clears
edit.errorMessage, edit.resultImage, upscale.resultImage and
upscale.errorMessage, leaving upscale.isLoading untouched; in the claimed
scenario — successful edit, successful upscale, second edit entry — the
completed upscale has already reset `isUpscaling`, so the entire upscale
StageResult is clear before the second edit completes. -/
theorem c1_edit_entry_invalidates_upscale (s0 : EditorState) (oi : SourceImage)
    (irp : Bool) (ic ifc : EncodedImage) (b1 b2 : List Char)
    (h1 : s0.originalImage = some oi) (h2 : s0.prompt ≠ "")
    (h3 : b1 ≠ []) (h4 : (',' : Char) ∉ b1) :
    handleEditEntry s0 =
      { s0 with
        isLoading := true
        error := none
        editedImage := none
        upscaledImage := none
        upscaleError := none } ∧
    (editOk s0 irp ic ifc b1).editedImage = some (pngDataUri b1) ∧
    (editThenUpscaleOk s0 irp ic ifc b1 b2).upscaledImage = some (pngDataUri b2) ∧
    (handleEditEntry (editThenUpscaleOk s0 irp ic ifc b1 b2)).isUpscaling = false ∧
    (handleEditEntry (editThenUpscaleOk s0 irp ic ifc b1 b2)).upscaledImage = none ∧
    (handleEditEntry (editThenUpscaleOk s0 irp ic ifc b1 b2)).upscaleError = none ∧
    (handleEditEntry (editThenUpscaleOk s0 irp ic ifc b1 b2)).isLoading = true ∧
    (handleEditEntry (editThenUpscaleOk s0 irp ic ifc b1 b2)).error = none ∧
    (handleEditEntry (editThenUpscaleOk s0 irp ic ifc b1 b2)).editedImage = none := by
  have hedit : editOk s0 irp ic ifc b1 =
      { handleEditEntry s0 with
        isLoading := false
        editedImage := some (pngDataUri b1) } :=
    handleEdit_success irp ic ifc b1 h1 h2
  have heImg : (editOk s0 irp ic ifc b1).editedImage = some (pngDataUri b1) := by
    rw [hedit]
  have hup : editThenUpscaleOk s0 irp ic ifc b1 b2 =
      { handleUpscaleEntry (editOk s0 irp ic ifc b1) with
        isUpscaling := false
        upscaledImage := some (pngDataUri b2) } :=
    handleUpscale_success b2 heImg (decode_pngDataUri h3 h4)
  refine ⟨rfl, heImg, ?_, ?_, ?_, ?_, ?_, ?_, ?_⟩ <;> rw [hup] <;> rfl

/-- Witness for the amended C1 at the concrete ready state with concrete
remote payloads. -/
theorem c1_witness :
    handleEditEntry readyState =
      { readyState with
        isLoading := true
        error := none
        editedImage := none
        upscaledImage := none
        upscaleError := none } ∧
    (editOk readyState true sampleImg sampleImg ("QUJD".toList)).editedImage =
      some (pngDataUri ("QUJD".toList)) ∧
    (editThenUpscaleOk readyState true sampleImg sampleImg ("QUJD".toList)
      ("RUZH".toList)).upscaledImage = some (pngDataUri ("RUZH".toList)) ∧
    (handleEditEntry (editThenUpscaleOk readyState true sampleImg sampleImg
      ("QUJD".toList) ("RUZH".toList))).isUpscaling = false ∧
    (handleEditEntry (editThenUpscaleOk readyState true sampleImg sampleImg
      ("QUJD".toList) ("RUZH".toList))).upscaledImage = none ∧
    (handleEditEntry (editThenUpscaleOk readyState true sampleImg sampleImg
      ("QUJD".toList) ("RUZH".toList))).upscaleError = none ∧
    (handleEditEntry (editThenUpscaleOk readyState true sampleImg sampleImg
      ("QUJD".toList) ("RUZH".toList))).isLoading = true ∧
    (handleEditEntry (editThenUpscaleOk readyState true sampleImg sampleImg
      ("QUJD".toList) ("RUZH".toList))).error = none ∧
    (handleEditEntry (editThenUpscaleOk readyState true sampleImg sampleImg
      ("QUJD".toList) ("RUZH".toList))).editedImage = none :=
  c1_edit_entry_invalidates_upscale readyState ⟨exampleFile, "blob:x"⟩ true
    sampleImg sampleImg ("QUJD".toList) ("RUZH".toList) rfl (by decide)
    (by decide) (by decide)

/-- C2 counterexample: selecting a new file while an upscale is in flight
(the file input is only disabled during an edit, line 232 of the source)
leaves `isUpscaling` true — `handleFileChange` clears both stages' results
and errors but never touches the two loading flags. -/
theorem c2_counterexample :
    ¬ ((handleFileChange upscalingBusyState exampleFile "blob:y").isUpscaling = false) := by
  decide

/-- C2 (amended): `handleFileChange` with a file replaces the source image
and clears both crop cells and both stages' result images and error
messages regardless of the prior state, but leaves the prompt and both
loading flags unchanged. -/
theorem c2_file_change_resets (s : EditorState) (f : SrcFile) (url : String) :
    (handleFileChange s f url).originalImage = some ⟨f, url⟩ ∧
    (handleFileChange s f url).editedImage = none ∧
    (handleFileChange s f url).error = none ∧
    (handleFileChange s f url).upscaledImage = none ∧
    (handleFileChange s f url).upscaleError = none ∧
    (handleFileChange s f url).crop = none ∧
    (handleFileChange s f url).completedCrop = none ∧
    (handleFileChange s f url).isLoading = s.isLoading ∧
    (handleFileChange s f url).isUpscaling = s.isUpscaling ∧
    (handleFileChange s f url).prompt = s.prompt :=
  ⟨rfl, rfl, rfl, rfl, rfl, rfl, rfl, rfl, rfl, rfl⟩

/-- C4: exactly one of the two input paths of `handleEdit` runs. The guard
of line 97 selects the rasterizer exactly when a completed crop with
positive width and height is present together with the displayed-image
handle; a missing crop makes the guard false; and `handleEdit` is
independent of the unselected path's outcome — of the rasterizer outcome
when the guard is false (in particular with the crop absent), and of the
`fileToBase64` outcome when it is true. -/
theorem c4_input_path (s : EditorState) (irp : Bool)
    (c c' f f' : Except String EncodedImage)
    (r : List Char → List Char → String → RemoteResult) :
    (editUsesCrop s.completedCrop irp = true ↔
      ∃ cr, s.completedCrop = some cr ∧ 0 < cr.width ∧ 0 < cr.height ∧ irp = true) ∧
    (s.completedCrop = none → editUsesCrop s.completedCrop irp = false) ∧
    (editUsesCrop s.completedCrop irp = false →
      handleEdit s irp c f r = handleEdit s irp c' f r) ∧
    (editUsesCrop s.completedCrop irp = true →
      handleEdit s irp c f r = handleEdit s irp c f' r) := by
  refine ⟨?_, ?_, ?_, ?_⟩
  · cases hcc : s.completedCrop with
    | none => simp [editUsesCrop]
    | some cr =>
      simp only [editUsesCrop, Bool.and_eq_true, decide_eq_true_eq,
        Option.some.injEq]
      constructor
      · rintro ⟨⟨hw, hh⟩, hi⟩
        exact ⟨cr, rfl, hw, hh, hi⟩
      · rintro ⟨cr2, heq, hw, hh, hi⟩
        cases heq
        exact ⟨⟨hw, hh⟩, hi⟩
  · intro h
    rw [h]
    rfl
  · intro h
    unfold handleEdit
    simp [h]
  · intro h
    unfold handleEdit
    simp [h]

/-- Witness for C4: with no completed crop the guard is false and the
rasterizer outcome is irrelevant to the run. -/
theorem c4_witness :
    editUsesCrop initState.completedCrop true = false ∧
    handleEdit initState true (Except.error "boom") (Except.ok sampleImg) remoteEditStub =
      handleEdit initState true (Except.ok sampleImg) (Except.ok sampleImg) remoteEditStub :=
  ⟨(c4_input_path initState true (Except.error "boom") (Except.ok sampleImg)
      (Except.ok sampleImg) (Except.ok sampleImg) remoteEditStub).2.1 rfl,
   (c4_input_path initState true (Except.error "boom") (Except.ok sampleImg)
      (Except.ok sampleImg) (Except.ok sampleImg) remoteEditStub).2.2.1
     ((c4_input_path initState true (Except.error "boom") (Except.ok sampleImg)
       (Except.ok sampleImg) (Except.ok sampleImg) remoteEditStub).2.1 rfl)⟩

/-- C5: precondition failures set only the stage's validation message —
distinct messages for a missing image and a missing instruction, and a
nothing-to-upscale message for `handleUpscale` — never start loading, and
return a state independent of every awaited outcome. -/
theorem c5_precondition_failures (s : EditorState) (irp : Bool)
    (c f : Except String EncodedImage)
    (r : List Char → List Char → String → RemoteResult)
    (ru : List Char → List Char → RemoteResult)
    (hL : s.isLoading = false) (hU : s.isUpscaling = false) :
    (s.originalImage = none →
      handleEdit s irp c f r = { s with error := some noImageMsg } ∧
      (handleEdit s irp c f r).isLoading = false) ∧
    (s.originalImage ≠ none → s.prompt = "" →
      handleEdit s irp c f r = { s with error := some noPromptMsg } ∧
      (handleEdit s irp c f r).isLoading = false) ∧
    (s.editedImage = none →
      handleUpscale s ru = { s with upscaleError := some noUpscaleSourceMsg } ∧
      (handleUpscale s ru).isUpscaling = false) := by
  refine ⟨?_, ?_, ?_⟩
  · intro h
    have he : handleEdit s irp c f r = { s with error := some noImageMsg } := by
      unfold handleEdit
      simp [h]
    exact ⟨he, by rw [he]; exact hL⟩
  · intro h hp
    obtain ⟨oi, hoi⟩ := Option.ne_none_iff_exists'.1 h
    have he : handleEdit s irp c f r = { s with error := some noPromptMsg } := by
      unfold handleEdit
      simp only [hoi]
      rw [if_pos hp]
    exact ⟨he, by rw [he]; exact hL⟩
  · intro h
    have he : handleUpscale s ru = { s with upscaleError := some noUpscaleSourceMsg } := by
      unfold handleUpscale
      simp [h]
    exact ⟨he, by rw [he]; exact hU⟩

/-- Witness for C5 at concrete states: no image, an image with an empty
prompt, and nothing to upscale. -/
theorem c5_witness :
    handleEdit initState true (Except.ok sampleImg) (Except.ok sampleImg) remoteEditStub =
      { initState with error := some noImageMsg } ∧
    handleEdit sourceOnlyState true (Except.ok sampleImg) (Except.ok sampleImg) remoteEditStub =
      { sourceOnlyState with error := some noPromptMsg } ∧
    handleUpscale initState remoteUpscaleStub =
      { initState with upscaleError := some noUpscaleSourceMsg } :=
  ⟨((c5_precondition_failures initState true (Except.ok sampleImg) (Except.ok sampleImg)
      remoteEditStub remoteUpscaleStub rfl rfl).1 rfl).1,
   ((c5_precondition_failures sourceOnlyState true (Except.ok sampleImg) (Except.ok sampleImg)
      remoteEditStub remoteUpscaleStub rfl rfl).2.1 (by decide) rfl).1,
   ((c5_precondition_failures initState true (Except.ok sampleImg) (Except.ok sampleImg)
      remoteEditStub remoteUpscaleStub rfl rfl).2.2 rfl).1⟩

/-- C8: across every branch of `handleUpscale` — precondition failure, decode
failure, remote failure, success — the prompt, source image, crop cells and
the whole edit StageResult (`isLoading`, `error`, `editedImage`) are left
unchanged, and the entry effects set `isUpscaling` and clear only the
upscale error and the upscale result. -/
theorem c8_upscale_touches_only_upscale (s : EditorState)
    (r : List Char → List Char → RemoteResult) :
    (handleUpscale s r).prompt = s.prompt ∧
    (handleUpscale s r).originalImage = s.originalImage ∧
    (handleUpscale s r).crop = s.crop ∧
    (handleUpscale s r).completedCrop = s.completedCrop ∧
    (handleUpscale s r).isLoading = s.isLoading ∧
    (handleUpscale s r).error = s.error ∧
    (handleUpscale s r).editedImage = s.editedImage ∧
    handleUpscaleEntry s =
      { s with isUpscaling := true, upscaleError := none, upscaledImage := none } := by
  obtain ⟨h1, h2, h3, h4, h5, h6, h7⟩ := handleUpscale_frame s r
  exact ⟨h1, h2, h6, h7, h4, h5, h3, rfl⟩

/-- C9: every observable state — a state after any sequence of completed
operations, or the entry state of a permitted in-flight stage run — has no
stage loading while holding a stale result image or error message:
re-entering Loading clears that stage's terminal fields, and each completed
run returns the stage to a non-loading state. -/
theorem c9_no_stale_while_loading (s : EditorState) (h : Observable s) :
    stageInvariant s := by
  cases h with
  | done hr =>
    obtain ⟨hL, hU⟩ := reach_flags hr
    constructor
    · intro hl
      rw [hL] at hl
      exact absurd hl Bool.false_ne_true
    · intro hu
      rw [hU] at hu
      exact absurd hu Bool.false_ne_true
  | @editLoading t hr hne hp =>
    obtain ⟨hL, hU⟩ := reach_flags hr
    constructor
    · intro _
      exact ⟨rfl, rfl⟩
    · intro hu
      have hu' : t.isUpscaling = true := hu
      rw [hU] at hu'
      exact absurd hu' Bool.false_ne_true
  | @upscaleLoading t hr hne =>
    obtain ⟨hL, hU⟩ := reach_flags hr
    constructor
    · intro hl
      have hl' : t.isLoading = true := hl
      rw [hL] at hl'
      exact absurd hl' Bool.false_ne_true
    · intro _
      exact ⟨rfl, rfl⟩

/-- Witness for C9: the entry state of an edit run started from the concrete
ready state. -/
theorem c9_witness : stageInvariant (handleEditEntry readyState) :=
  c9_no_stale_while_loading (handleEditEntry readyState)
    (Observable.editLoading reach_readyState (by decide) (by decide))

lemma upscale_remote_congr (s : EditorState)
    (r1 r2 : List Char → List Char → RemoteResult)
    (h : ∀ p, upscaleRemoteArgs s = some p → r1 p.1 p.2 = r2 p.1 p.2) :
    handleUpscale s r1 = handleUpscale s r2 := by
  unfold handleUpscale
  split
  · rfl
  · rename_i uri heq
    split
    · rfl
    · rename_i img hdec
      have harg : upscaleRemoteArgs s = some (img.base64, img.mimeType) := by
        unfold upscaleRemoteArgs
        simp only [heq, hdec]
      rw [h (img.base64, img.mimeType) harg]

/-- C10: in every reachable state, a present edited image is a data URI with
the exact header `data:image/png;base64`, so `handleUpscale` always passes
the MIME type image/png to the remote upscale operation, regardless of the
original upload's MIME type. -/
theorem c10_upscale_always_png (s : EditorState) (h : Reach s) :
    pngInvariant s := by
  refine ⟨reach_editedImage_png h, ?_, upscale_remote_congr s⟩
  intro p hp
  unfold upscaleRemoteArgs at hp
  cases he : s.editedImage with
  | none =>
    simp only [he] at hp
    exact Option.noConfusion hp
  | some uri =>
    simp only [he] at hp
    obtain ⟨b, hb⟩ := reach_editedImage_png h uri he
    subst hb
    rcases decode_pngDataUri_shape b with hd | ⟨d, hd⟩
    · simp only [hd] at hp
      exact Option.noConfusion hp
    · simp only [hd] at hp
      have hpd := Option.some.inj hp
      rw [← hpd]

theorem c10_witness : pngInvariant editedReachedState :=
  c10_upscale_always_png editedReachedState
    (Reach.edit true (Except.ok sampleImg) (Except.ok sampleImg)
      (fun _ _ _ => RemoteResult.ok ("QUJD".toList)) reach_readyState)
